import Mathlib

/-!
Shallow embedding of the news ingestion-and-crawl pipeline
(`collect_naver_news.py`, `news_crawler.py`): the article store, the
Harvester's paginated collect loop with idempotent URL inserts, the
Classifier's blocklist pass, and the Crawler's per-record state machine.
External collaborators (the search API, the extraction library, the
relational store's engine) are modelled as oracles/explicit state; database
errors are modelled by explicit fault flags on the operations that can
raise, with `rollback` semantics made explicit in each function.
-/

namespace Ingestion

/-! ## Character-list string utilities (Python semantics) -/

/-- Python prefix test on character lists: `headMatch p s` is true when `s`
starts with `p`. -/
def headMatch : List Char → List Char → Bool
  | [], _ => true
  | _ :: _, [] => false
  | p :: ps, c :: cs => p = c && headMatch ps cs

/-- Python `in` on strings as character lists: `subOf p s` is true when `p`
occurs as a contiguous substring of `s` (the empty pattern always occurs). -/
def subOf (p : List Char) : List Char → Bool
  | [] => headMatch p []
  | c :: cs => headMatch p (c :: cs) || subOf p cs

/-- The pattern removed by the pipeline's domain normalization. -/
def wwwPat : List Char := ['w', 'w', 'w', '.']

/-- Python `s.replace("www.", "")` on character lists: removes every
non-overlapping occurrence of `www.`, scanning left to right
(`news_crawler.py` lines 44 and 54). -/
def stripWWW : List Char → List Char
  | 'w' :: 'w' :: 'w' :: '.' :: cs => stripWWW cs
  | c :: cs => c :: stripWWW cs
  | [] => []

/-- Python `str.strip()` on character lists: drop whitespace from both
ends. -/
def pyStripChars (cs : List Char) : List Char :=
  ((cs.dropWhile Char.isWhitespace).reverse.dropWhile Char.isWhitespace).reverse

/-- Python `str.strip()` on strings. -/
def pyStripStr (s : String) : String := ⟨pyStripChars s.data⟩

/-- String-level `replace("www.", "")`. -/
def replaceWWW (s : String) : String := ⟨stripWWW s.data⟩

/-- Host extraction for the character list of a URL. Modelled after
`urllib.parse.urlparse(url).netloc` restricted to the absolute URLs the
pipeline stores (`scheme://host/path...`): the segment after the first
`//` up to the next `/`, `?` or `#`; empty when the URL has no `//`. -/
def netlocChars : List Char → List Char
  | [] => []
  | '/' :: '/' :: rest => rest.takeWhile (fun c => c ≠ '/' && c ≠ '?' && c ≠ '#')
  | _ :: cs => netlocChars cs

/-- Host extraction at string level. -/
def netloc (url : String) : String := ⟨netlocChars url.data⟩

/-! ## Data model -/

/-- The crawl-lifecycle field of an article record. -/
inductive CrawlStatus
  | pending
  | url_filtered
  | crawling
  | crawl_success
  | crawl_failed
deriving DecidableEq, Repr

/-- One row of the `naver_news` table. -/
structure ArticleRow where
  news_id : Nat
  url : String
  title : String
  pub_date : Nat
  search_keyword : String
  crawl_status : CrawlStatus
  url_filter_version : Option String
  crawl_attempt_count : Nat
deriving DecidableEq, Repr

/-- One row of the `crawled_news` table. -/
structure ContentRow where
  news_id : Nat
  text : String
  crawler_version : String
  response_time_ms : Nat
deriving DecidableEq, Repr

/-- The durable store: both tables plus the `news_id` sequence counter
(sequences do not roll back, so `next_id` survives rollbacks). -/
structure DB where
  articles : List ArticleRow
  contents : List ContentRow
  next_id : Nat
deriving DecidableEq, Repr

/-- The `news_id` column of the article table. -/
def newsIds (db : DB) : List Nat := db.articles.map (fun r => r.news_id)

/-- Status of the article with the given id, when present. -/
def statusOf (db : DB) (id : Nat) : Option CrawlStatus :=
  (db.articles.find? (fun r => r.news_id == id)).map (fun r => r.crawl_status)

/-- Number of article rows carrying the given URL. -/
def countUrl (db : DB) (u : String) : Nat :=
  (db.articles.filter (fun r => r.url == u)).length

/-! ## Classifier (`news_crawler.py` lines 32-131) -/

/-- The blocklist loader, `_load_filter_domains` (lines 40-49): the file is
given as `some lines` when readable, `none` when opening or reading raised;
in the latter case the exception is logged and swallowed and the filter set
becomes empty.  Each line is stripped of surrounding whitespace, blank
lines are skipped, and every occurrence of `www.` is removed. -/
def loadFilterDomains (file : Option (List String)) : List String :=
  match file with
  | none => []
  | some lines => ((lines.map pyStripStr).filter (fun l => l ≠ "")).map replaceWWW

/-- The bidirectional substring match of `_is_url_filtered` (line 55),
taken at host level: normalize the host by removing `www.` and test, for
each blocklist entry, whether the entry occurs in the host or the host
occurs in the entry. -/
def hostMatches (domains : List String) (host : String) : Bool :=
  domains.any (fun fd => subOf fd.data (replaceWWW host).data ||
    subOf (replaceWWW host).data fd.data)

/-- The predicate `_is_url_filtered` (lines 51-57): extract the URL's host
and apply the bidirectional substring match.  (`urlparse` does not raise on
strings, so the `except: return False` branch is unreachable and not
modelled.) -/
def isUrlFiltered (domains : List String) (url : String) : Bool :=
  hostMatches domains (netloc url)

/-- Selection of `filter_urls` (lines 78-85): the `(news_id, url)` pairs of
all `pending` rows.  (`ORDER BY news_id DESC` only affects traversal order;
both updates are id-set based, so the order is immaterial and omitted.) -/
def selectPending (db : DB) : List (Nat × String) :=
  (db.articles.filter (fun r => r.crawl_status == CrawlStatus.pending)).map
    (fun r => (r.news_id, r.url))

/-- The batched `UPDATE ... SET crawl_status = 'url_filtered',
url_filter_version = v WHERE news_id = ANY(ids)` (lines 104-110), applied
to one row. -/
def markFiltered (ids : List Nat) (v : String) (r : ArticleRow) : ArticleRow :=
  if r.news_id ∈ ids then
    { r with crawl_status := CrawlStatus.url_filtered, url_filter_version := some v }
  else r

/-- The batched `UPDATE ... SET url_filter_version = v WHERE news_id =
ANY(ids)` for the passed rows (lines 113-118), applied to one row. -/
def stampVersion (ids : List Nat) (v : String) (r : ArticleRow) : ArticleRow :=
  if r.news_id ∈ ids then { r with url_filter_version := some v } else r

/-- The id list `filtered_ids` built by the classification loop (lines
97-99): pending rows whose URL matches the blocklist. -/
def fidsOf (domains : List String) (db : DB) : List Nat :=
  ((selectPending db).filter (fun nu => isUrlFiltered domains nu.2)).map
    (fun nu => nu.1)

/-- The id list `passed_ids` (lines 97-101): pending rows whose URL does
not match the blocklist. -/
def pidsOf (domains : List String) (db : DB) : List Nat :=
  ((selectPending db).filter (fun nu => !isUrlFiltered domains nu.2)).map
    (fun nu => nu.1)

/-- Per-row view of the combined effect of the two batched updates of one
fault-free classification pass (proved equal to it below, for stores whose
ids satisfy the store's primary-key uniqueness): a pending row is either
marked `url_filtered` or left `pending`, and stamped with the filter
version either way; all other rows are untouched. -/
def rowClassify (domains : List String) (v : String) (r : ArticleRow) : ArticleRow :=
  if r.crawl_status = CrawlStatus.pending then
    (if isUrlFiltered domains r.url then
      { r with crawl_status := CrawlStatus.url_filtered, url_filter_version := some v }
    else { r with url_filter_version := some v })
  else r

/-- Fault injection for `filter_urls`: which of its four store operations
raises.  A flag set on a statement that is never executed (e.g. an update
skipped because its id list is empty) has no effect. -/
structure FilterFaults where
  failSelect : Bool
  failUpdFiltered : Bool
  failUpdPassed : Bool
  failCommit : Bool
deriving DecidableEq, Repr

/-- The fault-free environment. -/
def FilterFaults.ok : FilterFaults := ⟨false, false, false, false⟩

/-- The classification pass `filter_urls` (lines 69-131).  All updates run
in one transaction: staged states are local until the final commit, any
raising statement triggers `conn.rollback()` (dropping every staged
change), the exception is re-raised (`Except.error`), and on the empty
worklist the pass returns 0 before reaching the commit. -/
def filterUrls (domains : List String) (version : String) (f : FilterFaults)
    (db : DB) : DB × Except Unit Nat :=
  if f.failSelect then (db, Except.error ()) else
  if (selectPending db).isEmpty then (db, Except.ok 0) else
  let filtered_ids := fidsOf domains db
  let passed_ids := pidsOf domains db
  if !filtered_ids.isEmpty && f.failUpdFiltered then (db, Except.error ()) else
  let db1 :=
    if filtered_ids.isEmpty then db
    else { db with articles := db.articles.map (markFiltered filtered_ids version) }
  if !passed_ids.isEmpty && f.failUpdPassed then (db, Except.error ()) else
  let db2 :=
    if passed_ids.isEmpty then db1
    else { db1 with articles := db1.articles.map (stampVersion passed_ids version) }
  if f.failCommit then (db, Except.error ()) else
  (db2, Except.ok filtered_ids.length)

/-- The fault-free classification pass as a pure function (the value
`filter_urls` commits when nothing raises), with its returned count. -/
def classifyPass (domains : List String) (version : String) (db : DB) : DB × Nat :=
  if (selectPending db).isEmpty then (db, 0) else
  let filtered_ids := fidsOf domains db
  let passed_ids := pidsOf domains db
  let db1 :=
    if filtered_ids.isEmpty then db
    else { db with articles := db.articles.map (markFiltered filtered_ids version) }
  let db2 :=
    if passed_ids.isEmpty then db1
    else { db1 with articles := db1.articles.map (stampVersion passed_ids version) }
  (db2, filtered_ids.length)

/-! ## Crawler (`news_crawler.py` lines 133-277) -/

/-- Outcome of `_process_single_news` as reported to the pool. -/
inductive ProcResult
  | success
  | failed
deriving DecidableEq, Repr

/-- Fault injection for `_process_single_news`: which of its store writes
raises an unexpected (non-`IntegrityError`) error.  The duplicate-key
`IntegrityError` on the content insert is not a fault: it is determined by
the store state and handled by the dedicated handler (lines 193-202). -/
structure ProcFaults where
  failClaim : Bool
  failInsertContent : Bool
  failUpdSuccess : Bool
  failUpdRetry : Bool
  failUpdFailed : Bool
deriving DecidableEq, Repr

/-- The fault-free environment. -/
def ProcFaults.ok : ProcFaults := ⟨false, false, false, false, false⟩

/-- The `UPDATE naver_news SET crawl_status = st WHERE news_id = id`
single-row update used throughout the Crawler. -/
def setStatus (db : DB) (id : Nat) (st : CrawlStatus) : DB :=
  { db with articles := db.articles.map (fun r =>
      if r.news_id == id then { r with crawl_status := st } else r) }

/-- The claim update (lines 161-167): status to `crawling` and attempt
counter incremented, committed on its own. -/
def claimRow (db : DB) (id : Nat) : DB :=
  { db with articles := db.articles.map (fun r =>
      if r.news_id == id then
        { r with crawl_status := CrawlStatus.crawling,
                 crawl_attempt_count := r.crawl_attempt_count + 1 }
      else r) }

/-- Whether a content row for the given article id exists: the condition
under which the `INSERT INTO crawled_news` raises `IntegrityError`. -/
def hasContent (db : DB) (id : Nat) : Bool :=
  db.contents.any (fun c => c.news_id == id)

/-- Appending a content row (lines 177-181). -/
def insertContent (db : DB) (c : ContentRow) : DB :=
  { db with contents := db.contents ++ [c] }

/-- The fetch step `crawl_article` (lines 133-150): the extraction library
is an oracle whose raw outcome is `none` when it raised and `some s` when
it produced text `s`; the text is stripped and an empty result is reported
as no text.  The wall-clock latency is the oracle's second component. -/
def crawlArticle (raw : Option String) (ms : Nat) : Option String × Nat :=
  match raw with
  | none => (none, ms)
  | some s => (if pyStripStr s = "" then none else some (pyStripStr s), ms)

/-- Phase 1 of `_process_single_news` (lines 161-167): commit the claim
update.  When the update raises, the outer handler rolls the (empty)
transaction back and the record is untouched. -/
def claimPhase (f : ProcFaults) (db : DB) (id : Nat) : DB × Bool :=
  if f.failClaim then (db, false) else (claimRow db id, true)

/-- Phase 2 of `_process_single_news` (lines 172-218), run after the claim
committed, on the fetch outcome `fetched`.  On text: insert the content row
and set `crawl_success` in one transaction; a duplicate-key conflict is
caught, rolled back and downgraded to a plain `crawl_success` update; any
unexpected error reaches the outer handler, which rolls the current
transaction back and returns `failed` without touching the status.  On no
text: set `crawl_failed`. -/
def finishPhase (f : ProcFaults) (cv : String) (fetched : Option String × Nat)
    (db : DB) (id : Nat) : DB × ProcResult :=
  match fetched.1 with
  | some text =>
    if hasContent db id then
      if f.failUpdRetry then (db, ProcResult.failed)
      else (setStatus db id CrawlStatus.crawl_success, ProcResult.success)
    else if f.failInsertContent then (db, ProcResult.failed)
    else if f.failUpdSuccess then (db, ProcResult.failed)
    else (setStatus (insertContent db ⟨id, text, cv, fetched.2⟩) id
            CrawlStatus.crawl_success, ProcResult.success)
  | none =>
    if f.failUpdFailed then (db, ProcResult.failed)
    else (setStatus db id CrawlStatus.crawl_failed, ProcResult.failed)

/-- The full `_process_single_news` (lines 152-221) for one record: claim,
fetch through the oracle `rawO`, finalize. -/
def processSingleNews (f : ProcFaults) (cv : String)
    (rawO : String → Option String × Nat) (db : DB) (id : Nat) (url : String) :
    DB × ProcResult :=
  let cl := claimPhase f db id
  if cl.2 then finishPhase f cv (crawlArticle (rawO url).1 (rawO url).2) cl.1 id
  else (cl.1, ProcResult.failed)

/-- The Crawler's selection (lines 232-238): all rows with status `pending`
and a non-null filter version.  (`ORDER BY pub_date DESC` only fixes the
processing order, which none of the verified properties depend on.) -/
def selectEligible (db : DB) : List (Nat × String) :=
  (db.articles.filter (fun r =>
    r.crawl_status == CrawlStatus.pending && r.url_filter_version.isSome)).map
    (fun r => (r.news_id, r.url))

/-- One pool task of `crawl_news` (lines 255-266): process a record and
bump the success/failure counter for its result. -/
def crawlStep (cv : String) (faults : Nat → ProcFaults)
    (rawO : String → Option String × Nat) (acc : DB × Nat × Nat)
    (t : Nat × String) : DB × Nat × Nat :=
  let pr := processSingleNews (faults t.1) cv rawO acc.1 t.1 t.2
  match pr.2 with
  | ProcResult.success => (pr.1, acc.2.1 + 1, acc.2.2)
  | ProcResult.failed => (pr.1, acc.2.1, acc.2.2 + 1)

/-- The crawl stage `crawl_news` (lines 223-277): process every selected
record, returning the final store and the success/failure counts.  The
worker pool completes all submitted tasks; each task touches only its own
record, so the pool is modelled by processing the task list in sequence. -/
def crawlNews (cv : String) (faults : Nat → ProcFaults)
    (rawO : String → Option String × Nat) (db : DB) : DB × Nat × Nat :=
  (selectEligible db).foldl (crawlStep cv faults rawO) (db, 0, 0)

/-! ## Harvester (`collect_naver_news.py`) -/

/-- A parsed news item as produced by `parse_item` (lines 77-87): the title
with markup stripped and the publish date parsed are supplied by the
provider oracle, since both transformations are external to the core. -/
structure NewsItem where
  title : String
  pub_date : Nat
  url : String
  search_keyword : String
deriving DecidableEq, Repr

/-- One item of a search-API response (lines 127-139): title, link, and
parsed publication date. -/
structure SearchItem where
  title : String
  link : String
  pub_date : Nat
deriving DecidableEq, Repr

/-- `parse_item` packaging of a response item. -/
def parseItem (query : String) (it : SearchItem) : NewsItem :=
  { title := it.title, pub_date := it.pub_date, url := it.link,
    search_keyword := query }

/-- The URL column of a row list. -/
def urlsOf (rows : List ArticleRow) : List String := rows.map (fun r => r.url)

/-- The article row created for a newly inserted item: the insert supplies
title, date, url and keyword; `crawl_status` starts at `pending` with no
filter version and a zero attempt counter. -/
def rowOfItem (id : Nat) (it : NewsItem) : ArticleRow :=
  { news_id := id, url := it.url, title := it.title, pub_date := it.pub_date,
    search_keyword := it.search_keyword, crawl_status := CrawlStatus.pending,
    url_filter_version := none, crawl_attempt_count := 0 }

/-- The batch insert `insert_news` (lines 89-108).  All per-item inserts
run on one connection and commit together at the end; each item carries a
fault flag marking an injected store error on its `INSERT`.  Per item:
an injected error triggers `conn.rollback()`, which discards every
uncommitted insert staged so far (not only the failing item), and the loop
continues; a URL already present in the committed table or in the staged
inserts makes `ON CONFLICT (url) DO NOTHING` a silent no-op with
`cursor.rowcount = 0`; otherwise the row is staged under the next sequence
id and `cursor.rowcount = 1` is added to the running count.  The count is a
Python variable: rollbacks do not subtract what was already counted. -/
def insertNews (db : DB) (items : List (NewsItem × Bool)) : DB × Nat :=
  if items.isEmpty then (db, 0) else
  let st := items.foldl
    (fun (st : List ArticleRow × Nat × Nat) ib =>
      if ib.2 then ([], st.2.1, st.2.2)
      else if (urlsOf db.articles).contains ib.1.url ||
              (urlsOf st.1).contains ib.1.url then st
      else (st.1 ++ [rowOfItem st.2.1 ib.1], st.2.1 + 1, st.2.2 + 1))
    ([], db.next_id, 0)
  ({ db with articles := db.articles ++ st.1, next_id := st.2.1 }, st.2.2)

/-- One item of the dedup-and-parse pass over a response page (lines
133-139): an item whose link is in the 3-day existing-URL snapshot or in
the in-run seen set is skipped; an accepted item is parsed and its link
added to the seen set. -/
def pageStep (query : String) (existing : List String)
    (acc : List NewsItem × List String) (it : SearchItem) :
    List NewsItem × List String :=
  if existing.contains it.link || acc.2.contains it.link then acc
  else (acc.1 ++ [parseItem query it], acc.2 ++ [it.link])

/-- The dedup-and-parse pass over one response page (lines 131-139),
returning the accepted items and the grown seen set. -/
def pageNewItems (query : String) (existing cu : List String)
    (items : List SearchItem) : List NewsItem × List String :=
  items.foldl (pageStep query existing) ([], cu)

/-- The mutable state of the `collect` loop (lines 110-165). -/
structure CollectState where
  db : DB
  existing : List String
  collectedUrls : List String
  collected : Nat
  insertedTotal : Nat
  start : Nat
deriving Repr

/-- Outcome of one loop iteration: terminate with this state, or loop. -/
inductive StepOut
  | stop (s : CollectState)
  | next (s : CollectState)
deriving Repr

/-- Whether a step outcome terminates the loop. -/
def StepOut.isStop : StepOut → Bool
  | StepOut.stop _ => true
  | StepOut.next _ => false

/-- The state a step outcome carries. -/
def StepOut.state : StepOut → CollectState
  | StepOut.stop s => s
  | StepOut.next s => s

/-- One iteration of the `collect` loop body (lines 122-162), entered with
`collected < total`.  The provider oracle maps `(display, start)` to
`none` (API call failed, logged and treated as no items) or a page of
items.  Stop conditions in source order: no items; cumulative
inserted-total unchanged versus before this page's insert; page offset
beyond 1000.  The store inserts here are fault-free: store faults are
exercised separately on `insertNews`. -/
def collectStep (prov : Nat → Nat → Option (List SearchItem)) (query : String)
    (total : Nat) (s : CollectState) : StepOut :=
  let display := min 100 (total - s.collected)
  match prov display s.start with
  | none => StepOut.stop s
  | some items =>
    if items.isEmpty then StepOut.stop s else
    let page := pageNewItems query s.existing s.collectedUrls items
    let ins := insertNews s.db (page.1.map (fun it => (it, false)))
    let s1 : CollectState :=
      { s with db := ins.1, collectedUrls := page.2,
               collected := s.collected + items.length,
               insertedTotal := s.insertedTotal + ins.2 }
    if s1.insertedTotal = s.insertedTotal then StepOut.stop s1 else
    let s2 := { s1 with start := s1.start + display }
    if s2.start > 1000 then StepOut.stop s2 else StepOut.next s2

/-- The `collect` loop (lines 121-162) with explicit fuel: `none` means the
fuel ran out before the loop terminated on its own. -/
def collectLoop (prov : Nat → Nat → Option (List SearchItem)) (query : String)
    (total : Nat) : Nat → CollectState → Option CollectState
  | 0, _ => none
  | fuel + 1, s =>
    if s.collected < total then
      match collectStep prov query total s with
      | StepOut.stop s1 => some s1
      | StepOut.next s1 => collectLoop prov query total fuel s1
    else some s

/-- The state at entry of the loop (lines 114-119): a fresh in-run seen
set, zero counters, page offset 1; `existing` is the snapshot returned by
`get_existing_urls`. -/
def initCollectState (db : DB) (existing : List String) : CollectState :=
  { db := db, existing := existing, collectedUrls := [], collected := 0,
    insertedTotal := 0, start := 1 }

/-! ## Spec-side comparison definition and concrete sample data -/

/-- Normalization as the specification words it (refinement comparison
point only, not a translation of the code): strip `www.` exactly when it
appears at the start of the string, leaving every other occurrence
unchanged. -/
def stripLeadingOnly (s : String) : String :=
  if headMatch wwwPat s.data then ⟨s.data.drop 4⟩ else s

/-- Concrete URLs used by witnesses. -/
def urlA : String := "https://a.com/article/1"

/-- A second concrete URL. -/
def urlB : String := "https://b.com/article/2"

/-- A third concrete URL. -/
def urlC : String := "https://c.com/article/3"

/-- Sample article row used by concrete witnesses. -/
def sampleRow (id : Nat) (u : String) (st : CrawlStatus)
    (ufv : Option String) : ArticleRow :=
  { news_id := id, url := u, title := "title", pub_date := 0,
    search_keyword := "kw", crawl_status := st, url_filter_version := ufv,
    crawl_attempt_count := 0 }

/-- First sample item for URL `urlA`. -/
def wItemA1 : NewsItem :=
  { title := "first", pub_date := 0, url := urlA, search_keyword := "kw" }

/-- Second sample item carrying the same URL `urlA`. -/
def wItemA2 : NewsItem :=
  { title := "second", pub_date := 0, url := urlA, search_keyword := "kw" }

/-- Sample item for URL `urlB`. -/
def wItemB : NewsItem :=
  { title := "third", pub_date := 0, url := urlB, search_keyword := "kw" }

/-- Sample item for URL `urlC`. -/
def wItemC : NewsItem :=
  { title := "fourth", pub_date := 0, url := urlC, search_keyword := "kw" }

/-- Sample filter-version label. -/
def vLabel : String := "v1.00"

/-- A URL whose host matches the `naver.com` blocklist entry. -/
def urlNaver : String := "https://news.naver.com/a/9"

/-- A pending row with a non-matching URL. -/
def wRowP : ArticleRow := sampleRow 1 urlA CrawlStatus.pending none

/-- A pending row with a matching URL. -/
def wRowN : ArticleRow := sampleRow 2 urlNaver CrawlStatus.pending none

/-- A two-row store with distinct ids, both rows pending. -/
def wDB : DB := ⟨[wRowP, wRowN], [], 3⟩

/-- A fault environment whose only failing operation is the commit. -/
def cFaultCommit : FilterFaults := ⟨false, false, false, true⟩

/-- An article record counts as terminal when its status is one of the two
crawl outcomes. -/
def terminalAt (db : DB) (id : Nat) : Prop :=
  statusOf db id = some CrawlStatus.crawl_success ∨
    statusOf db id = some CrawlStatus.crawl_failed

/-- The race schedule of the concurrent duplicate-content scenario: worker
A claims the record, worker B claims it too, worker A finishes (inserting
the content row), then worker B finishes (its insert conflicts).  Both
phases are the ones `_process_single_news` is composed of; each worker
runs on its own connection.  Returns the final store and both workers'
reported results. -/
def raceRun (cv tA tB : String) (msA msB : Nat) (db : DB) (id : Nat) :
    DB × ProcResult × ProcResult :=
  let s1 := claimPhase ProcFaults.ok db id
  let s2 := claimPhase ProcFaults.ok s1.1 id
  let ra := finishPhase ProcFaults.ok cv (crawlArticle (some tA) msA) s2.1 id
  let rb := finishPhase ProcFaults.ok cv (crawlArticle (some tB) msB) ra.1 id
  (rb.1, ra.2, rb.2)

/-- The crawler version string of the sample configuration. -/
def crawlerV : String := "1.0.0"

/-- Sample extracted text. -/
def helloText : String := "hello"

/-- A store holding one eligible record (pending, stamped with a filter
version). -/
def c1db : DB := ⟨[sampleRow 1 urlA CrawlStatus.pending (some vLabel)], [], 2⟩

/-- A fault oracle injecting an unexpected store error on the content
insert of every record. -/
def c1faults : Nat → ProcFaults := fun _ => ⟨false, true, false, false, false⟩

/-- A fetch oracle that always extracts the sample text in 5 ms. -/
def c1raw : String → Option String × Nat := fun _ => (some helloText, 5)

/-- A sample search-response item. -/
def wSearchItem : SearchItem := { title := "t", link := urlA, pub_date := 0 }

/-- The sample search keyword. -/
def wQuery : String := "kw"

/-- The empty store with the id sequence at 1. -/
def emptyDB : DB := ⟨[], [], 1⟩

/-- Sample strings for the classifier examples. -/
def naverCom : String := "naver.com"

/-- Host with a subdomain, matched by `naver.com` via containment. -/
def newsNaverCom : String := "news.naver.com"

/-- Blocklist entry containing the host `naver.com` as a substring. -/
def mNaverCom : String := "m.naver.com"

/-- Host with a non-leading `www.` occurrence. -/
def hostInner : String := "news.www.naver.com"

/-- What the code's replace-all normalization makes of `hostInner`. -/
def hostInnerStripped : String := "news.naver.com"

/-- A host with no `www.` occurrence at all. -/
def plainHost : String := "daum.net"

/-! ## String-level lemmas -/

/-- The Boolean starts-with test agrees with the prefix relation. -/
theorem headMatch_iff (p s : List Char) : headMatch p s = true ↔ p <+: s := by
  induction p generalizing s with
  | nil => simp [headMatch, List.nil_prefix]
  | cons a ps ih =>
    cases s with
    | nil => simp [headMatch]
    | cons c cs => simp [headMatch, List.cons_prefix_cons, ih]

/-- Python substring membership agrees with the contiguous-sublist
relation. -/
theorem subOf_iff (p s : List Char) : subOf p s = true ↔ p <:+: s := by
  induction s with
  | nil =>
    cases p with
    | nil => simp [subOf, headMatch]
    | cons a ps => simp [subOf, headMatch, List.infix_nil]
  | cons c cs ih =>
    simp [subOf, List.infix_cons_iff, headMatch_iff, ih]

/-- A leading `www.` is removed by the replace-all normalization. -/
theorem stripWWW_leading (s : List Char) :
    stripWWW ('w' :: 'w' :: 'w' :: '.' :: s) = stripWWW s := rfl

/-- Strings without any `www.` occurrence are left unchanged. -/
theorem stripWWW_of_no_occ (s : List Char) (h : subOf wwwPat s = false) :
    stripWWW s = s := by
  induction s with
  | nil => simp [stripWWW]
  | cons c cs ih =>
    rw [subOf] at h
    rw [Bool.or_eq_false_iff] at h
    rw [stripWWW.eq_def]
    split
    · rename_i rest heq
      injection heq with e1 e2
      subst e1; subst e2
      have hx := h.1
      simp [headMatch, wwwPat] at hx
    · rename_i x c0 cs0 hne h1
      injection h1 with e1 e2
      subst e1; subst e2
      rw [ih h.2]
    · rename_i x heq
      simp at heq

/-! ## C8 — domain normalization -/

/-- C8 counterexample: the claim says normalization removes only a leading
`www.` and leaves other occurrences unchanged, so on the host
`news.www.naver.com` (whose only `www.` is in the middle) it would be the
identity.  The code's `replace('www.', '')` removes the inner occurrence
too, both on hosts and on blocklist lines, while the spec-side
leading-only strip indeed leaves the host unchanged. -/
theorem c8_counterexample :
    replaceWWW hostInner ≠ hostInner ∧
    replaceWWW hostInner = hostInnerStripped ∧
    loadFilterDomains (some [hostInner]) = [hostInnerStripped] ∧
    stripLeadingOnly hostInner = hostInner := by
  refine ⟨by decide, by decide, by decide, by decide⟩

/-- C8 amended: normalization removes every non-overlapping occurrence of
`www.` scanning left to right (Python `str.replace`): a string with no
occurrence is unchanged, a leading occurrence is removed, and this applies
to blocklist lines and URL hosts alike through `replaceWWW`. -/
theorem c8_replace_all_normalization :
    (∀ s : List Char, subOf wwwPat s = false → stripWWW s = s) ∧
    (∀ s : List Char, stripWWW (wwwPat ++ s) = stripWWW s) ∧
    (∀ s : String, subOf wwwPat s.data = false → replaceWWW s = s) := by
  refine ⟨stripWWW_of_no_occ, fun s => rfl, fun s h => ?_⟩
  cases s with
  | mk data => simp [replaceWWW, stripWWW_of_no_occ data h]

/-- C8 witness: the amended theorem evaluated at concrete hosts. -/
theorem c8_replace_all_normalization_witness :
    subOf wwwPat plainHost.data = false ∧
    stripWWW (wwwPat ++ plainHost.data) = stripWWW plainHost.data ∧
    replaceWWW plainHost = plainHost :=
  ⟨by decide, c8_replace_all_normalization.2.1 plainHost.data,
    c8_replace_all_normalization.2.2 plainHost (by decide)⟩

/-! ## C4 — bidirectional substring classification rule -/

/-- C4: a record is classified as filtered exactly when some blocklist
entry occurs in its normalized host or its normalized host occurs in the
entry; in particular blocklist `naver.com` filters host `news.naver.com`
and blocklist `m.naver.com` filters host `naver.com`. -/
theorem c4_bidirectional_substring_rule :
    (∀ (domains : List String) (url : String),
      isUrlFiltered domains url = true ↔
        ∃ fd ∈ domains, fd.data <:+: (replaceWWW (netloc url)).data ∨
          (replaceWWW (netloc url)).data <:+: fd.data) ∧
    hostMatches [naverCom] newsNaverCom = true ∧
    hostMatches [mNaverCom] naverCom = true := by
  refine ⟨fun domains url => ?_, by decide, by decide⟩
  simp [isUrlFiltered, hostMatches, List.any_eq_true, subOf_iff]

/-! ## Store-insert lemmas, C2 and C7 -/

/-- A zero URL count is the absence of the URL from the url column. -/
theorem countUrl_eq_zero_iff (db : DB) (u : String) :
    countUrl db u = 0 ↔ (urlsOf db.articles).contains u = false := by
  simp [countUrl, urlsOf, List.length_eq_zero, List.filter_eq_nil_iff,
    List.contains_eq_any_beq, List.any_eq_true]

/-- With a zero URL count, filtering the table by that URL is empty. -/
theorem filter_url_eq_nil (db : DB) (u : String) (h0 : countUrl db u = 0) :
    db.articles.filter (fun r => r.url == u) = [] := by
  simpa [countUrl, List.length_eq_zero] using h0

/-- Inserting a single fresh item appends one `pending` row under the next
sequence id and reports one inserted row. -/
theorem insertNews_fresh_single (db : DB) (i1 : NewsItem)
    (h0 : countUrl db i1.url = 0) :
    insertNews db [(i1, false)] =
      (⟨db.articles ++ [rowOfItem db.next_id i1], db.contents, db.next_id + 1⟩, 1) := by
  rw [countUrl_eq_zero_iff] at h0
  have h0e : ¬ ∃ a ∈ db.articles, a.url = i1.url := by
    simpa [urlsOf, List.contains_eq_any_beq, List.any_eq_true] using h0
  simp [insertNews, urlsOf, h0e]

/-- Inserting a single item whose URL is already present leaves the store
untouched and reports zero inserted rows, without any error. -/
theorem insertNews_conflict_single (db : DB) (i2 : NewsItem)
    (hc : 1 ≤ countUrl db i2.url) :
    insertNews db [(i2, false)] = (db, 0) := by
  have hce : ∃ a ∈ db.articles, a.url = i2.url := by
    have hlen := hc
    simp [countUrl] at hlen
    rcases List.exists_mem_of_length_pos
      (by omega : 0 < (db.articles.filter (fun r => r.url == i2.url)).length) with ⟨r, hr⟩
    rw [List.mem_filter] at hr
    exact ⟨r, hr.1, by simpa using hr.2⟩
  simp [insertNews, urlsOf, hce]

/-- Appending one row with URL `u` to a table without `u` gives count 1. -/
theorem countUrl_append_hit (db : DB) (u : String)
    (h0 : countUrl db u = 0) (r : ArticleRow) (hr : r.url = u) :
    countUrl ⟨db.articles ++ [r], db.contents, db.next_id + 1⟩ u = 1 := by
  simp [countUrl, List.filter_append]
  rw [show (db.articles.filter (fun a => a.url == u)) = [] from filter_url_eq_nil db u h0]
  simp [hr]

/-- A two-item batch whose second item repeats the first URL inserts only
the first item: the second `ON CONFLICT` no-op contributes nothing. -/
theorem insertNews_pair_dup (db : DB) (i1 i2 : NewsItem)
    (h2 : i2.url = i1.url) (h0 : countUrl db i1.url = 0) :
    insertNews db [(i1, false), (i2, false)] =
      (⟨db.articles ++ [rowOfItem db.next_id i1], db.contents, db.next_id + 1⟩, 1) := by
  rw [countUrl_eq_zero_iff] at h0
  have h0e : ¬ ∃ a ∈ db.articles, a.url = i1.url := by
    simpa [urlsOf, List.contains_eq_any_beq, List.any_eq_true] using h0
  simp [insertNews, urlsOf, h0e, rowOfItem, h2]

/-- C2: inserting the same URL twice — within one batch or across two
invocations of the insert — leaves exactly one article record for that
URL; the conflicting insert is a silent no-op returning the store
unchanged (no error value exists on this path) and contributes 0 to the
inserted count. -/
theorem c2_idempotent_insert (db : DB) (i1 i2 : NewsItem) (u : String)
    (h1 : i1.url = u) (h2 : i2.url = u) (h0 : countUrl db u = 0) :
    countUrl (insertNews db [(i1, false)]).1 u = 1 ∧
    (insertNews db [(i1, false)]).2 = 1 ∧
    insertNews (insertNews db [(i1, false)]).1 [(i2, false)] =
      ((insertNews db [(i1, false)]).1, 0) ∧
    countUrl (insertNews db [(i1, false), (i2, false)]).1 u = 1 ∧
    (insertNews db [(i1, false), (i2, false)]).2 = 1 := by
  subst h1
  rw [insertNews_fresh_single db i1 h0, insertNews_pair_dup db i1 i2 h2 h0]
  have hcnt := countUrl_append_hit db i1.url h0 (rowOfItem db.next_id i1) rfl
  refine ⟨hcnt, rfl, ?_, hcnt, rfl⟩
  apply insertNews_conflict_single
  rw [h2]
  exact le_of_eq hcnt.symm

/-- C2 witness: the duplicate-URL insert evaluated on the empty store. -/
theorem c2_idempotent_insert_witness :
    wItemA1.url = urlA ∧ wItemA2.url = urlA ∧ countUrl emptyDB urlA = 0 ∧
    (countUrl (insertNews emptyDB [(wItemA1, false)]).1 urlA = 1 ∧
     (insertNews emptyDB [(wItemA1, false)]).2 = 1 ∧
     insertNews (insertNews emptyDB [(wItemA1, false)]).1 [(wItemA2, false)] =
       ((insertNews emptyDB [(wItemA1, false)]).1, 0) ∧
     countUrl (insertNews emptyDB [(wItemA1, false), (wItemA2, false)]).1 urlA = 1 ∧
     (insertNews emptyDB [(wItemA1, false), (wItemA2, false)]).2 = 1) :=
  ⟨rfl, rfl, by decide,
    c2_idempotent_insert emptyDB wItemA1 wItemA2 urlA rfl rfl (by decide)⟩

/-- C7 counterexample: a batch of two fresh items where the store raises
on the second.  The claim predicts that only the failing item is skipped,
so the first item would be committed and the returned count (1) would
equal the stored rows.  The code's `conn.rollback()` discards the first
item's uncommitted insert as well: the run returns 1 but stores nothing. -/
theorem c7_counterexample :
    (insertNews emptyDB [(wItemA1, false), (wItemB, true)]).2 = 1 ∧
    (insertNews emptyDB [(wItemA1, false), (wItemB, true)]).1.articles = [] := by
  refine ⟨by decide, by decide⟩

/-- C7 amended: a store error on one item of a batch rolls back every
insert of the batch staged so far (not only the failing item), the failing
item is skipped, the remaining items are still attempted and committed,
and the returned count accumulates the per-statement row counts including
the rolled-back ones, so it can exceed the rows actually stored: a fresh
item, a failing item and another fresh item leave exactly one new row but
report 2. -/
theorem c7_rollback_clears_batch (db : DB) (i1 ie i3 : NewsItem)
    (h1 : countUrl db i1.url = 0) (h3 : countUrl db i3.url = 0) :
    insertNews db [(i1, false), (ie, true), (i3, false)] =
      (⟨db.articles ++ [rowOfItem (db.next_id + 1) i3], db.contents,
        db.next_id + 2⟩, 2) ∧
    (insertNews db [(i1, false), (ie, true), (i3, false)]).1.articles.length =
      db.articles.length + 1 := by
  rw [countUrl_eq_zero_iff] at h1 h3
  have h1e : ¬ ∃ a ∈ db.articles, a.url = i1.url := by
    simpa [urlsOf, List.contains_eq_any_beq, List.any_eq_true] using h1
  have h3e : ¬ ∃ a ∈ db.articles, a.url = i3.url := by
    simpa [urlsOf, List.contains_eq_any_beq, List.any_eq_true] using h3
  have he : insertNews db [(i1, false), (ie, true), (i3, false)] =
      (⟨db.articles ++ [rowOfItem (db.next_id + 1) i3], db.contents,
        db.next_id + 2⟩, 2) := by
    simp [insertNews, urlsOf, h1e, h3e]
  refine ⟨he, ?_⟩
  rw [he]
  simp

/-- C7 witness: the amended batch behaviour on the empty store. -/
theorem c7_rollback_clears_batch_witness :
    countUrl emptyDB wItemA1.url = 0 ∧ countUrl emptyDB wItemC.url = 0 ∧
    (insertNews emptyDB [(wItemA1, false), (wItemB, true), (wItemC, false)] =
      (⟨emptyDB.articles ++ [rowOfItem (emptyDB.next_id + 1) wItemC],
        emptyDB.contents, emptyDB.next_id + 2⟩, 2) ∧
     (insertNews emptyDB
        [(wItemA1, false), (wItemB, true), (wItemC, false)]).1.articles.length =
       emptyDB.articles.length + 1) :=
  ⟨by decide, by decide,
    c7_rollback_clears_batch emptyDB wItemA1 wItemB wItemC (by decide) (by decide)⟩

/-! ## Classification-pass lemmas, C6, C9 and C10 -/

/-- The filtered-update is the identity when its id list is empty. -/
theorem markFiltered_nil (v : String) (r : ArticleRow) : markFiltered [] v r = r := by
  simp [markFiltered]

/-- The stamp-update is the identity when its id list is empty. -/
theorem stampVersion_nil (v : String) (r : ArticleRow) : stampVersion [] v r = r := by
  simp [stampVersion]

/-- The stamp-update never changes the status field. -/
theorem stampVersion_status (ids : List Nat) (v : String) (r : ArticleRow) :
    (stampVersion ids v r).crawl_status = r.crawl_status := by
  unfold stampVersion
  split <;> rfl

/-- Mapping both empty-id-list updates over a table is the identity. -/
theorem map_classify_nil (v : String) (l : List ArticleRow) :
    List.map (stampVersion [] v ∘ markFiltered [] v) l = l := by
  have hcomp : (stampVersion [] v ∘ markFiltered [] v) = fun r => r := by
    funext r
    simp [Function.comp_apply, markFiltered_nil, stampVersion_nil]
  simp [hcomp]

/-- With no pending rows there are no matched ids. -/
theorem fids_nil_of_no_pending (domains : List String) (db : DB)
    (h : selectPending db = []) : fidsOf domains db = [] := by
  simp [fidsOf, h]

/-- With no pending rows there are no passed ids. -/
theorem pids_nil_of_no_pending (domains : List String) (db : DB)
    (h : selectPending db = []) : pidsOf domains db = [] := by
  simp [pidsOf, h]

/-- The fault-free pass commits exactly the two batched updates, returning
the matched-id count; contents and sequence are untouched. -/
theorem filterUrls_ok_eq (domains : List String) (v : String) (db : DB) :
    filterUrls domains v FilterFaults.ok db =
      (⟨(db.articles.map (markFiltered (fidsOf domains db) v)).map
          (stampVersion (pidsOf domains db) v), db.contents, db.next_id⟩,
        Except.ok (fidsOf domains db).length) := by
  by_cases he : (selectPending db).isEmpty
  · have hsel : selectPending db = [] := by simpa [List.isEmpty_iff] using he
    have hf := fids_nil_of_no_pending domains db hsel
    have hp := pids_nil_of_no_pending domains db hsel
    simp [filterUrls, FilterFaults.ok, he, hf, hp, map_classify_nil]
  · by_cases hf : (fidsOf domains db).isEmpty
    · have hfn : fidsOf domains db = [] := by simpa [List.isEmpty_iff] using hf
      by_cases hp : (pidsOf domains db).isEmpty
      · have hpn : pidsOf domains db = [] := by simpa [List.isEmpty_iff] using hp
        simp [filterUrls, FilterFaults.ok, he, hf, hp, hfn, hpn, map_classify_nil]
      · simp [filterUrls, FilterFaults.ok, he, hf, hp, hfn, markFiltered_nil,
          Function.comp]
    · by_cases hp : (pidsOf domains db).isEmpty
      · have hpn : pidsOf domains db = [] := by simpa [List.isEmpty_iff] using hp
        simp [filterUrls, FilterFaults.ok, he, hf, hp, hpn, stampVersion_nil,
          Function.comp]
      · simp [filterUrls, FilterFaults.ok, he, hf, hp]

/-- Under primary-key uniqueness of ids, a row's id is in `filtered_ids`
exactly when the row is pending and its URL matches the blocklist. -/
theorem mem_fids_iff (domains : List String) (db : DB)
    (hnd : (newsIds db).Nodup) (r : ArticleRow) (hr : r ∈ db.articles) :
    r.news_id ∈ fidsOf domains db ↔
      (r.crawl_status = CrawlStatus.pending ∧ isUrlFiltered domains r.url = true) := by
  constructor
  · intro h
    simp [fidsOf, selectPending, List.mem_map, List.mem_filter] at h
    obtain ⟨u, ⟨a, ⟨ha, hap⟩, haid, hau⟩, hf⟩ := h
    have heq : a = r := List.inj_on_of_nodup_map hnd ha hr haid
    subst heq
    subst hau
    exact ⟨hap, hf⟩
  · rintro ⟨hp, hf⟩
    simp [fidsOf, selectPending, List.mem_map, List.mem_filter]
    exact ⟨r.url, ⟨r, ⟨hr, hp⟩, rfl, rfl⟩, hf⟩

/-- Under primary-key uniqueness of ids, a row's id is in `passed_ids`
exactly when the row is pending and its URL does not match. -/
theorem mem_pids_iff (domains : List String) (db : DB)
    (hnd : (newsIds db).Nodup) (r : ArticleRow) (hr : r ∈ db.articles) :
    r.news_id ∈ pidsOf domains db ↔
      (r.crawl_status = CrawlStatus.pending ∧ isUrlFiltered domains r.url = false) := by
  constructor
  · intro h
    simp [pidsOf, selectPending, List.mem_map, List.mem_filter] at h
    obtain ⟨u, ⟨a, ⟨ha, hap⟩, haid, hau⟩, hf⟩ := h
    have heq : a = r := List.inj_on_of_nodup_map hnd ha hr haid
    subst heq
    subst hau
    exact ⟨hap, hf⟩
  · rintro ⟨hp, hf⟩
    simp [pidsOf, selectPending, List.mem_map, List.mem_filter]
    exact ⟨r.url, ⟨r, ⟨hr, hp⟩, rfl, rfl⟩, hf⟩

/-- A pending row with a non-matching URL lands in `passed_ids` (no
uniqueness needed for this direction). -/
theorem mem_pids_of_pending (domains : List String) (db : DB) (r : ArticleRow)
    (hr : r ∈ db.articles) (hp : r.crawl_status = CrawlStatus.pending)
    (hf : isUrlFiltered domains r.url = false) :
    r.news_id ∈ pidsOf domains db := by
  simp [pidsOf, selectPending, List.mem_map, List.mem_filter]
  exact ⟨r.url, ⟨r, ⟨hr, hp⟩, rfl, rfl⟩, hf⟩

/-- Per row, the two sequential batched updates amount to `rowClassify`
under primary-key uniqueness of ids. -/
theorem mark_stamp_eq_rowClassify (domains : List String) (v : String) (db : DB)
    (hnd : (newsIds db).Nodup) (r : ArticleRow) (hr : r ∈ db.articles) :
    stampVersion (pidsOf domains db) v (markFiltered (fidsOf domains db) v r) =
      rowClassify domains v r := by
  by_cases hp : r.crawl_status = CrawlStatus.pending
  · by_cases hf : isUrlFiltered domains r.url = true
    · have hin : r.news_id ∈ fidsOf domains db :=
        (mem_fids_iff domains db hnd r hr).2 ⟨hp, hf⟩
      have hnotp : r.news_id ∉ pidsOf domains db := by
        intro hmem
        have hc := (mem_pids_iff domains db hnd r hr).1 hmem
        rw [hf] at hc
        simp at hc
      simp [markFiltered, stampVersion, rowClassify, hin, hnotp, hp, hf]
    · have hff : isUrlFiltered domains r.url = false := by
        cases hb : isUrlFiltered domains r.url
        · rfl
        · exact absurd hb hf
      have hnotf : r.news_id ∉ fidsOf domains db := by
        intro hmem
        have hc := (mem_fids_iff domains db hnd r hr).1 hmem
        rw [hff] at hc
        exact Bool.false_ne_true hc.2
      have hin : r.news_id ∈ pidsOf domains db :=
        (mem_pids_iff domains db hnd r hr).2 ⟨hp, hff⟩
      simp [markFiltered, stampVersion, rowClassify, hin, hnotf, hp, hff]
  · have hnotf : r.news_id ∉ fidsOf domains db := by
      intro hmem
      exact hp ((mem_fids_iff domains db hnd r hr).1 hmem).1
    have hnotp : r.news_id ∉ pidsOf domains db := by
      intro hmem
      exact hp ((mem_pids_iff domains db hnd r hr).1 hmem).1
    simp [markFiltered, stampVersion, rowClassify, hnotf, hnotp, hp]

/-- C6: the classification pass is atomic.  A result carrying the
re-raised error leaves the store exactly as it was (full rollback); a
successful result equals the pure two-update pass committed as a whole; a
select fault always surfaces as the error, and a commit fault surfaces as
the error whenever the pass reaches the commit (non-empty worklist). -/
theorem c6_classifier_atomicity (domains : List String) (v : String)
    (f : FilterFaults) (db : DB) :
    ((filterUrls domains v f db).2 = Except.error () →
      (filterUrls domains v f db).1 = db) ∧
    (∀ n, (filterUrls domains v f db).2 = Except.ok n →
      (filterUrls domains v f db) =
        ((classifyPass domains v db).1, Except.ok (classifyPass domains v db).2)) ∧
    (f.failSelect = true → (filterUrls domains v f db).2 = Except.error ()) ∧
    (f.failCommit = true → (selectPending db).isEmpty = false →
      (filterUrls domains v f db).2 = Except.error ()) := by
  simp only [filterUrls, classifyPass]
  split_ifs with h1 h2 h3 h4 h5 <;> simp_all

/-- C6 witness: a commit fault on a two-row store rolls the pass back. -/
theorem c6_classifier_atomicity_witness :
    cFaultCommit.failCommit = true ∧ (selectPending wDB).isEmpty = false ∧
    (filterUrls [naverCom] vLabel cFaultCommit wDB).2 = Except.error () ∧
    (filterUrls [naverCom] vLabel cFaultCommit wDB).1 = wDB :=
  ⟨by decide, by decide,
    (c6_classifier_atomicity [naverCom] vLabel cFaultCommit wDB).2.2.2 (by decide) (by decide),
    (c6_classifier_atomicity [naverCom] vLabel cFaultCommit wDB).1
      ((c6_classifier_atomicity [naverCom] vLabel cFaultCommit wDB).2.2.2 (by decide) (by decide))⟩

/-- C9: the fault-free pass maps every row through `rowClassify` and
touches nothing else: a pending row that does not match the blocklist only
receives the filter-version stamp (status stays `pending`), `rowClassify`
never changes any field other than status and filter version, and the
content table is untouched.  Ids are assumed unique, as the store's
primary key guarantees. -/
theorem c9_classifier_frame (domains : List String) (v : String) (db : DB)
    (hnd : (newsIds db).Nodup) :
    (filterUrls domains v FilterFaults.ok db).1.articles =
      db.articles.map (rowClassify domains v) ∧
    (filterUrls domains v FilterFaults.ok db).1.contents = db.contents ∧
    (∀ r : ArticleRow, r.crawl_status = CrawlStatus.pending →
      isUrlFiltered domains r.url = false →
      rowClassify domains v r = { r with url_filter_version := some v }) ∧
    (∀ r : ArticleRow,
      (rowClassify domains v r).news_id = r.news_id ∧
      (rowClassify domains v r).url = r.url ∧
      (rowClassify domains v r).title = r.title ∧
      (rowClassify domains v r).pub_date = r.pub_date ∧
      (rowClassify domains v r).search_keyword = r.search_keyword ∧
      (rowClassify domains v r).crawl_attempt_count = r.crawl_attempt_count) := by
  refine ⟨?_, ?_, ?_, ?_⟩
  · rw [filterUrls_ok_eq]
    simp only [List.map_map]
    apply List.map_congr_left
    intro r hr
    exact mark_stamp_eq_rowClassify domains v db hnd r hr
  · rw [filterUrls_ok_eq]
  · intro r hp hf
    simp [rowClassify, hp, hf]
  · intro r
    unfold rowClassify
    split_ifs <;> simp

/-- C9 witness: the frame property on the two-row store. -/
theorem c9_classifier_frame_witness :
    (newsIds wDB).Nodup ∧
    ((filterUrls [naverCom] vLabel FilterFaults.ok wDB).1.articles =
        wDB.articles.map (rowClassify [naverCom] vLabel) ∧
      (filterUrls [naverCom] vLabel FilterFaults.ok wDB).1.contents = wDB.contents) ∧
    wRowP.crawl_status = CrawlStatus.pending ∧
    isUrlFiltered [naverCom] wRowP.url = false ∧
    rowClassify [naverCom] vLabel wRowP =
      { wRowP with url_filter_version := some vLabel } ∧
    (rowClassify [naverCom] vLabel wRowN).news_id = wRowN.news_id :=
  ⟨by decide,
    ⟨(c9_classifier_frame [naverCom] vLabel wDB (by decide)).1,
     (c9_classifier_frame [naverCom] vLabel wDB (by decide)).2.1⟩,
    rfl, by decide,
    (c9_classifier_frame [naverCom] vLabel wDB (by decide)).2.2.1 wRowP rfl (by decide),
    ((c9_classifier_frame [naverCom] vLabel wDB (by decide)).2.2.2 wRowN).1⟩

/-- With no matched ids the filtered-update leaves the table unchanged. -/
theorem map_mark_fids_nil (domains : List String) (v : String) (db : DB)
    (h : fidsOf domains db = []) :
    db.articles.map (markFiltered (fidsOf domains db) v) = db.articles := by
  rw [h]
  have hid : markFiltered [] v = fun r => r := funext (markFiltered_nil v)
  simp [hid]

/-- C10: an unreadable blocklist file yields the empty filter set, under
which no URL is ever filtered; the subsequent fault-free pass returns 0
filtered records, changes no status, stamps every pending row with the
filter version, and touches no content row. -/
theorem c10_unreadable_blocklist (v : String) (db : DB) :
    loadFilterDomains none = [] ∧
    (∀ url, isUrlFiltered (loadFilterDomains none) url = false) ∧
    (filterUrls (loadFilterDomains none) v FilterFaults.ok db).2 = Except.ok 0 ∧
    ((filterUrls (loadFilterDomains none) v FilterFaults.ok db).1.articles.map
        (fun r => r.crawl_status)) = db.articles.map (fun r => r.crawl_status) ∧
    (∀ r ∈ db.articles, r.crawl_status = CrawlStatus.pending →
      { r with url_filter_version := some v } ∈
        (filterUrls (loadFilterDomains none) v FilterFaults.ok db).1.articles) ∧
    (filterUrls (loadFilterDomains none) v FilterFaults.ok db).1.contents =
      db.contents := by
  have hload : loadFilterDomains none = [] := rfl
  have hfids : fidsOf [] db = [] := by
    have hno : ∀ nu : Nat × String, isUrlFiltered [] nu.2 = false := fun _ => rfl
    simp [fidsOf, hno]
  have hart : (filterUrls [] v FilterFaults.ok db).1.articles =
      db.articles.map (stampVersion (pidsOf [] db) v) := by
    rw [filterUrls_ok_eq, map_mark_fids_nil [] v db hfids]
  rw [hload]
  refine ⟨rfl, fun url => rfl, ?_, ?_, ?_, ?_⟩
  · rw [filterUrls_ok_eq, hfids]
    rfl
  · rw [hart, List.map_map]
    apply List.map_congr_left
    intro r hr
    exact stampVersion_status (pidsOf [] db) v r
  · intro r hr hp
    rw [hart]
    have hin : r.news_id ∈ pidsOf [] db := mem_pids_of_pending [] db r hr hp rfl
    have hst : stampVersion (pidsOf [] db) v r = { r with url_filter_version := some v } := by
      simp [stampVersion, hin]
    exact hst ▸ List.mem_map_of_mem (stampVersion (pidsOf [] db) v) hr
  · rw [filterUrls_ok_eq]

/-- C10 witness: the empty-filter pass on the two-row store. -/
theorem c10_unreadable_blocklist_witness :
    wRowP ∈ wDB.articles ∧ wRowP.crawl_status = CrawlStatus.pending ∧
    ((filterUrls (loadFilterDomains none) vLabel FilterFaults.ok wDB).2 =
        Except.ok 0 ∧
      { wRowP with url_filter_version := some vLabel } ∈
        (filterUrls (loadFilterDomains none) vLabel FilterFaults.ok wDB).1.articles) :=
  ⟨by decide, rfl,
    ⟨(c10_unreadable_blocklist vLabel wDB).2.2.1,
     (c10_unreadable_blocklist vLabel wDB).2.2.2.2.1 wRowP (by decide) rfl⟩⟩


/-! ## Crawler state-machine lemmas, C1 and C5 -/

/-- The status update preserves the id column. -/
theorem newsIds_setStatus (db : DB) (id : Nat) (st : CrawlStatus) :
    newsIds (setStatus db id st) = newsIds db := by
  simp only [newsIds, setStatus, List.map_map]
  apply List.map_congr_left
  intro r hr
  simp only [Function.comp_apply]
  split <;> rfl

/-- The claim update preserves the id column. -/
theorem newsIds_claimRow (db : DB) (id : Nat) :
    newsIds (claimRow db id) = newsIds db := by
  simp only [newsIds, claimRow, List.map_map]
  apply List.map_congr_left
  intro r hr
  simp only [Function.comp_apply]
  split <;> rfl

/-- A content insert does not touch the article table. -/
theorem newsIds_insertContent (db : DB) (c : ContentRow) :
    newsIds (insertContent db c) = newsIds db := rfl

/-- A per-row table update that sets the status of every row with the
given id yields that status for the id, provided some row carries it. -/
theorem find_map_self (g : ArticleRow → ArticleRow) (id : Nat) (st : CrawlStatus)
    (hg1 : ∀ r, (g r).news_id = r.news_id)
    (hg2 : ∀ r, r.news_id = id → (g r).crawl_status = st) :
    ∀ l : List ArticleRow, (∃ r ∈ l, r.news_id = id) →
      ((l.map g).find? (fun r => r.news_id == id)).map (fun r => r.crawl_status) =
        some st
  | [], h => by simp at h
  | r :: l, h => by
    by_cases hb : r.news_id = id
    · have hgb : ((g r).news_id == id) = true := by simp [hg1 r, hb]
      simp [List.find?, hgb, hg2 r hb]
    · have hgb : ((g r).news_id == id) = false := by simp [hg1 r, hb]
      have hr : ∃ x ∈ l, x.news_id = id := by
        rcases h with ⟨x, hx, hxe⟩
        rcases List.mem_cons.1 hx with rfl | hx2
        · exact absurd hxe hb
        · exact ⟨x, hx2, hxe⟩
      simp only [List.map_cons, List.find?, hgb]
      exact find_map_self g id st hg1 hg2 l hr

/-- A per-row table update that leaves rows with the given id untouched
and preserves all ids does not change the status read for that id. -/
theorem find_map_frame (g : ArticleRow → ArticleRow) (id : Nat)
    (hg1 : ∀ r, (g r).news_id = r.news_id)
    (hg4 : ∀ r, r.news_id = id → g r = r) :
    ∀ l : List ArticleRow,
      ((l.map g).find? (fun r => r.news_id == id)).map (fun r => r.crawl_status) =
        (l.find? (fun r => r.news_id == id)).map (fun r => r.crawl_status)
  | [] => rfl
  | r :: l => by
    by_cases hb : r.news_id = id
    · have h1 : ((g r).news_id == id) = true := by simp [hg1 r, hb]
      have h2 : (r.news_id == id) = true := by simp [hb]
      simp [List.find?, h1, h2, hg4 r hb]
    · have h1 : ((g r).news_id == id) = false := by simp [hg1 r, hb]
      have h2 : (r.news_id == id) = false := by simp [hb]
      simp only [List.map_cons, List.find?, h1, h2]
      exact find_map_frame g id hg1 hg4 l

/-- Setting a present record's status makes it read back. -/
theorem statusOf_setStatus_self (db : DB) (id : Nat) (st : CrawlStatus)
    (h : id ∈ newsIds db) :
    statusOf (setStatus db id st) id = some st := by
  have hex : ∃ r ∈ db.articles, r.news_id = id := by
    simpa [newsIds, List.mem_map, eq_comm] using h
  refine find_map_self _ id st ?_ ?_ db.articles hex
  · intro r
    split <;> rfl
  · intro r hr
    simp [hr]

/-- Setting one record's status does not affect another id. -/
theorem statusOf_setStatus_ne (db : DB) (id j : Nat) (st : CrawlStatus)
    (hne : id ≠ j) :
    statusOf (setStatus db j st) id = statusOf db id := by
  refine find_map_frame _ id ?_ ?_ db.articles
  · intro r
    split <;> rfl
  · intro r hr
    have hb : (r.news_id == j) = false := by
      simp [hr]
      omega
    simp [hb]

/-- Claiming one record does not affect another id's status. -/
theorem statusOf_claimRow_ne (db : DB) (id j : Nat) (hne : id ≠ j) :
    statusOf (claimRow db j) id = statusOf db id := by
  refine find_map_frame _ id ?_ ?_ db.articles
  · intro r
    split <;> rfl
  · intro r hr
    have hb : (r.news_id == j) = false := by
      simp [hr]
      omega
    simp [hb]

/-- A content insert does not affect any status. -/
theorem statusOf_insertContent (db : DB) (c : ContentRow) (id : Nat) :
    statusOf (insertContent db c) id = statusOf db id := rfl

/-- The finalize phase preserves the id column. -/
theorem newsIds_finishPhase (f : ProcFaults) (cv : String)
    (fetched : Option String × Nat) (db : DB) (id : Nat) :
    newsIds (finishPhase f cv fetched db id).1 = newsIds db := by
  unfold finishPhase
  split <;> split_ifs <;>
    simp [newsIds_setStatus, newsIds_claimRow, newsIds_insertContent]

/-- Processing one record preserves the id column. -/
theorem newsIds_processSingleNews (f : ProcFaults) (cv : String)
    (rawO : String → Option String × Nat) (db : DB) (id : Nat) (url : String) :
    newsIds (processSingleNews f cv rawO db id url).1 = newsIds db := by
  unfold processSingleNews claimPhase
  by_cases hc : f.failClaim <;>
    simp [hc, newsIds_finishPhase, newsIds_claimRow]

/-- The finalize phase of one record does not affect another id. -/
theorem statusOf_finishPhase_ne (f : ProcFaults) (cv : String)
    (fetched : Option String × Nat) (db : DB) (id j : Nat) (hne : id ≠ j) :
    statusOf (finishPhase f cv fetched db j).1 id = statusOf db id := by
  unfold finishPhase
  split <;> split_ifs <;>
    simp [statusOf_setStatus_ne _ _ _ _ hne, statusOf_insertContent]

/-- Processing one record does not affect another id's status. -/
theorem statusOf_processSingleNews_ne (f : ProcFaults) (cv : String)
    (rawO : String → Option String × Nat) (db : DB) (id j : Nat) (url : String)
    (hne : id ≠ j) :
    statusOf (processSingleNews f cv rawO db j url).1 id = statusOf db id := by
  unfold processSingleNews claimPhase
  by_cases hc : f.failClaim <;>
    simp [hc, statusOf_finishPhase_ne _ _ _ _ _ _ hne, statusOf_claimRow_ne _ _ _ hne]

/-- Fault-free processing of a present record always ends terminal:
success on text (fresh insert or duplicate-key conflict alike), failure
on no text. -/
theorem processSingleNews_ok_terminal (cv : String)
    (rawO : String → Option String × Nat) (db : DB) (id : Nat) (url : String)
    (h : id ∈ newsIds db) :
    terminalAt (processSingleNews ProcFaults.ok cv rawO db id url).1 id := by
  have hcl : id ∈ newsIds (claimRow db id) := by rw [newsIds_claimRow]; exact h
  unfold processSingleNews claimPhase finishPhase terminalAt
  simp only [ProcFaults.ok, if_true, if_false, Bool.false_eq_true, if_neg]
  cases hfe : (crawlArticle (rawO url).1 (rawO url).2).1 with
  | none =>
    right
    simp [hfe]
    exact statusOf_setStatus_self _ _ _ hcl
  | some t =>
    by_cases hhc : hasContent (claimRow db id) id
    · left
      simp [hfe, hhc]
      exact statusOf_setStatus_self _ _ _ hcl
    · left
      simp [hfe, hhc]
      refine statusOf_setStatus_self _ _ _ ?_
      rw [newsIds_insertContent]
      exact hcl

/-- The store component of one pool task is the processed store. -/
theorem crawlStep_db (cv : String) (faults : Nat → ProcFaults)
    (rawO : String → Option String × Nat) (acc : DB × Nat × Nat) (t : Nat × String) :
    (crawlStep cv faults rawO acc t).1 =
      (processSingleNews (faults t.1) cv rawO acc.1 t.1 t.2).1 := by
  cases hres : (processSingleNews (faults t.1) cv rawO acc.1 t.1 t.2).2 <;>
    simp [crawlStep, hres]

/-- A fault-free pool task keeps presence and terminality of any already
terminal record. -/
theorem crawlStep_ok_preserve (cv : String)
    (rawO : String → Option String × Nat) (acc : DB × Nat × Nat)
    (t : Nat × String) (id : Nat) (hm : id ∈ newsIds acc.1)
    (ht : terminalAt acc.1 id) :
    id ∈ newsIds (crawlStep cv (fun _ => ProcFaults.ok) rawO acc t).1 ∧
      terminalAt (crawlStep cv (fun _ => ProcFaults.ok) rawO acc t).1 id := by
  rw [crawlStep_db]
  constructor
  · rw [newsIds_processSingleNews]
    exact hm
  · by_cases he : id = t.1
    · subst he
      exact processSingleNews_ok_terminal cv rawO acc.1 t.1 t.2 hm
    · unfold terminalAt
      rw [statusOf_processSingleNews_ne _ _ _ _ _ _ _ he]
      exact ht

/-- The fault-free pool loop keeps any already terminal record terminal. -/
theorem crawlFold_preserve (cv : String)
    (rawO : String → Option String × Nat) (tasks : List (Nat × String)) :
    ∀ (acc : DB × Nat × Nat) (id : Nat), id ∈ newsIds acc.1 →
      terminalAt acc.1 id →
      terminalAt (tasks.foldl (crawlStep cv (fun _ => ProcFaults.ok) rawO) acc).1 id := by
  induction tasks with
  | nil => intro acc id hm ht; exact ht
  | cons hd tl ih =>
    intro acc id hm ht
    have hstep := crawlStep_ok_preserve cv rawO acc hd id hm ht
    exact ih _ id hstep.1 hstep.2

/-- After the fault-free pool loop over a task list of present records,
every task's record is terminal. -/
theorem crawlFold_terminal (cv : String)
    (rawO : String → Option String × Nat) (tasks : List (Nat × String)) :
    ∀ (acc : DB × Nat × Nat), (∀ t ∈ tasks, t.1 ∈ newsIds acc.1) →
      ∀ t ∈ tasks,
        terminalAt (tasks.foldl (crawlStep cv (fun _ => ProcFaults.ok) rawO) acc).1 t.1 := by
  induction tasks with
  | nil => intro acc hmem t ht; simp at ht
  | cons hd tl ih =>
    intro acc hmem t ht
    have hhd : hd.1 ∈ newsIds acc.1 := hmem hd (List.mem_cons_self hd tl)
    have hacc1 : ∀ s ∈ tl, s.1 ∈ newsIds (crawlStep cv (fun _ => ProcFaults.ok) rawO acc hd).1 := by
      intro s hs
      rw [crawlStep_db, newsIds_processSingleNews]
      exact hmem s (List.mem_cons_of_mem hd hs)
    rcases List.mem_cons.1 ht with rfl | htl
    · have hterm : terminalAt (crawlStep cv (fun _ => ProcFaults.ok) rawO acc t).1 t.1 := by
        rw [crawlStep_db]
        exact processSingleNews_ok_terminal cv rawO acc.1 t.1 t.2 hhd
      have hm1 : t.1 ∈ newsIds (crawlStep cv (fun _ => ProcFaults.ok) rawO acc t).1 := by
        rw [crawlStep_db, newsIds_processSingleNews]
        exact hhd
      exact crawlFold_preserve cv rawO tl _ t.1 hm1 hterm
    · exact ih _ hacc1 t htl

/-- Selected eligible records exist in the table. -/
theorem selectEligible_mem_ids (db : DB) (t : Nat × String)
    (ht : t ∈ selectEligible db) : t.1 ∈ newsIds db := by
  simp [selectEligible, List.mem_map, List.mem_filter] at ht
  rcases ht with ⟨r, ⟨hr, _⟩, he⟩
  simp [newsIds, List.mem_map]
  exact ⟨r, hr, by rw [← he]⟩

/-- C1 amended: in a run without unexpected store errors, every selected
eligible record (pending with a non-null filter version) ends in exactly
one of the two terminal crawl statuses and is never left in `crawling`.
The original claim's error clause fails: an unexpected error after the
claim commit is rolled back and only reported as a failed result, leaving
the record's status at `crawling` (see the counterexample). -/
theorem c1_crawler_terminal (cv : String)
    (rawO : String → Option String × Nat) (db : DB) :
    ∀ t ∈ selectEligible db,
      statusOf (crawlNews cv (fun _ => ProcFaults.ok) rawO db).1 t.1 =
          some CrawlStatus.crawl_success ∨
        statusOf (crawlNews cv (fun _ => ProcFaults.ok) rawO db).1 t.1 =
          some CrawlStatus.crawl_failed := by
  intro t ht
  exact crawlFold_terminal cv rawO (selectEligible db) (db, 0, 0)
    (fun s hs => selectEligible_mem_ids db s hs) t ht

/-- C1 counterexample: one eligible record, text extracted, and an
unexpected store error on the content insert.  The claim says the record
transitions to `crawl_failed`; the code rolls back, reports the worker
failure only in the aggregate counts, and leaves the record in
`crawling`. -/
theorem c1_counterexample :
    statusOf (crawlNews crawlerV c1faults c1raw c1db).1 1 =
        some CrawlStatus.crawling ∧
    ¬ (statusOf (crawlNews crawlerV c1faults c1raw c1db).1 1 =
          some CrawlStatus.crawl_success ∨
        statusOf (crawlNews crawlerV c1faults c1raw c1db).1 1 =
          some CrawlStatus.crawl_failed) ∧
    (crawlNews crawlerV c1faults c1raw c1db).2 = (0, 1) := by
  refine ⟨by decide, by decide, by decide⟩

/-- C5: two workers racing on the same article id — both claim the record,
the first stores the content row, the second's insert hits the duplicate
key and is swallowed — leave exactly one content row, the record at
`crawl_success`, and both workers reporting success. -/
theorem c5_duplicate_content_race (db : DB) (id : Nat) (cv tA tB : String)
    (msA msB : Nat) (hid : id ∈ newsIds db) (hnc : hasContent db id = false)
    (hA : pyStripStr tA ≠ "") (hB : pyStripStr tB ≠ "") :
    (raceRun cv tA tB msA msB db id).2.1 = ProcResult.success ∧
    (raceRun cv tA tB msA msB db id).2.2 = ProcResult.success ∧
    ((raceRun cv tA tB msA msB db id).1.contents.filter
        (fun c => c.news_id == id)).length = 1 ∧
    statusOf (raceRun cv tA tB msA msB db id).1 id =
      some CrawlStatus.crawl_success := by
  have hca : crawlArticle (some tA) msA = (some (pyStripStr tA), msA) := by
    simp [crawlArticle, hA]
  have hcb : crawlArticle (some tB) msB = (some (pyStripStr tB), msB) := by
    simp [crawlArticle, hB]
  have hnc2 : hasContent (claimRow (claimRow db id) id) id = false := hnc
  have hra : finishPhase ProcFaults.ok cv (crawlArticle (some tA) msA)
      (claimRow (claimRow db id) id) id =
      (setStatus (insertContent (claimRow (claimRow db id) id)
          ⟨id, pyStripStr tA, cv, msA⟩) id CrawlStatus.crawl_success,
        ProcResult.success) := by
    rw [hca]
    unfold finishPhase
    simp [hnc2, ProcFaults.ok]
  have hhca : hasContent (setStatus (insertContent (claimRow (claimRow db id) id)
      ⟨id, pyStripStr tA, cv, msA⟩) id CrawlStatus.crawl_success) id = true := by
    simp [hasContent, setStatus, insertContent, claimRow, List.any_append]
  have hrb : finishPhase ProcFaults.ok cv (crawlArticle (some tB) msB)
      (setStatus (insertContent (claimRow (claimRow db id) id)
        ⟨id, pyStripStr tA, cv, msA⟩) id CrawlStatus.crawl_success) id =
      (setStatus (setStatus (insertContent (claimRow (claimRow db id) id)
          ⟨id, pyStripStr tA, cv, msA⟩) id CrawlStatus.crawl_success) id
          CrawlStatus.crawl_success,
        ProcResult.success) := by
    rw [hcb]
    unfold finishPhase
    simp [hhca, ProcFaults.ok]
  have hkey : raceRun cv tA tB msA msB db id =
      (setStatus (setStatus (insertContent (claimRow (claimRow db id) id)
          ⟨id, pyStripStr tA, cv, msA⟩) id CrawlStatus.crawl_success) id
          CrawlStatus.crawl_success,
        ProcResult.success, ProcResult.success) := by
    show (let ra := finishPhase ProcFaults.ok cv (crawlArticle (some tA) msA)
            (claimRow (claimRow db id) id) id
          let rb := finishPhase ProcFaults.ok cv (crawlArticle (some tB) msB) ra.1 id
          (rb.1, ra.2, rb.2)) = _
    simp only [hra, hrb]
  rw [hkey]
  have hfil : db.contents.filter (fun c => c.news_id == id) = [] := by
    rw [List.filter_eq_nil_iff]
    intro c hc
    simp [hasContent, List.any_eq_true] at hnc
    simp [hnc c hc]
  have hmem : id ∈ newsIds (setStatus (insertContent (claimRow (claimRow db id) id)
      ⟨id, pyStripStr tA, cv, msA⟩) id CrawlStatus.crawl_success) := by
    rw [newsIds_setStatus, newsIds_insertContent, newsIds_claimRow, newsIds_claimRow]
    exact hid
  refine ⟨rfl, rfl, ?_, statusOf_setStatus_self _ _ _ hmem⟩
  simp [setStatus, insertContent, claimRow, List.filter_append, hfil]

/-- C1 witness: the fault-free run on a one-record store. -/
theorem c1_crawler_terminal_witness :
    (1, urlA) ∈ selectEligible c1db ∧
    (statusOf (crawlNews crawlerV (fun _ => ProcFaults.ok) c1raw c1db).1 1 =
        some CrawlStatus.crawl_success ∨
      statusOf (crawlNews crawlerV (fun _ => ProcFaults.ok) c1raw c1db).1 1 =
        some CrawlStatus.crawl_failed) :=
  ⟨by decide, c1_crawler_terminal crawlerV c1raw c1db (1, urlA) (by decide)⟩

/-- C5 witness: the race evaluated on the one-record store. -/
theorem c5_duplicate_content_race_witness :
    1 ∈ newsIds c1db ∧ hasContent c1db 1 = false ∧
    pyStripStr helloText ≠ "" ∧
    ((raceRun crawlerV helloText helloText 5 7 c1db 1).2.1 = ProcResult.success ∧
     (raceRun crawlerV helloText helloText 5 7 c1db 1).2.2 = ProcResult.success ∧
     ((raceRun crawlerV helloText helloText 5 7 c1db 1).1.contents.filter
         (fun c => c.news_id == 1)).length = 1 ∧
     statusOf (raceRun crawlerV helloText helloText 5 7 c1db 1).1 1 =
       some CrawlStatus.crawl_success) :=
  ⟨by decide, by decide, by decide,
    c5_duplicate_content_race c1db 1 crawlerV helloText helloText 5 7
      (by decide) (by decide) (by decide) (by decide)⟩


/-! ## Harvester pagination lemmas and C3 -/

/-- The in-run seen set only ever grows during a page pass. -/
theorem pageFold_ext (q : String) (ex : List String) :
    ∀ (items : List SearchItem) (acc : List NewsItem × List String),
      ∃ ext, (items.foldl (pageStep q ex) acc).2 = acc.2 ++ ext
  | [], acc => ⟨[], by simp⟩
  | it :: its, acc => by
    by_cases hg : it.link ∈ ex ∨ it.link ∈ acc.2
    · have hstep : pageStep q ex acc it = acc := by simp [pageStep, hg]
      rcases pageFold_ext q ex its (pageStep q ex acc it) with ⟨ext1, h1⟩
      rw [hstep] at h1
      refine ⟨ext1, ?_⟩
      rw [List.foldl_cons, hstep]
      exact h1
    · have hstep : pageStep q ex acc it =
          (acc.1 ++ [parseItem q it], acc.2 ++ [it.link]) := by
        simp [pageStep, hg]
      rcases pageFold_ext q ex its (pageStep q ex acc it) with ⟨ext1, h1⟩
      rw [hstep] at h1
      refine ⟨it.link :: ext1, ?_⟩
      rw [List.foldl_cons, hstep, h1]
      simp

/-- After a page pass, every item of the page is covered: its link is in
the existing-URL snapshot or in the resulting seen set. -/
theorem pageFold_covers (q : String) (ex : List String) :
    ∀ (items : List SearchItem) (acc : List NewsItem × List String),
      ∀ it ∈ items, it.link ∈ ex ∨
        it.link ∈ (items.foldl (pageStep q ex) acc).2
  | [], acc => by
    intro it hit
    simp at hit
  | hd :: tl, acc => by
    intro it hit
    rcases List.mem_cons.1 hit with rfl | htl
    · by_cases hex : it.link ∈ ex
      · exact Or.inl hex
      · right
        have hpre : it.link ∈ (pageStep q ex acc it).2 := by
          by_cases hcu : it.link ∈ acc.2
          · have hstep : pageStep q ex acc it = acc := by
              simp [pageStep, Or.inr hcu]
            rw [hstep]
            exact hcu
          · have hg : ¬ (it.link ∈ ex ∨ it.link ∈ acc.2) := by
              intro hor
              rcases hor with hx | hm
              · exact hex hx
              · exact hcu hm
            have hstep : pageStep q ex acc it =
                (acc.1 ++ [parseItem q it], acc.2 ++ [it.link]) := by
              simp [pageStep, hg]
            rw [hstep]
            simp
        rcases pageFold_ext q ex tl (pageStep q ex acc it) with ⟨ext1, h1⟩
        rw [List.foldl_cons, h1]
        exact List.mem_append_left _ hpre
    · rw [List.foldl_cons]
      exact pageFold_covers q ex tl (pageStep q ex acc hd) it htl

/-- A page pass over fully covered items accepts nothing and leaves the
accumulator unchanged. -/
theorem pageFold_noop (q : String) (ex : List String) :
    ∀ (items : List SearchItem) (acc : List NewsItem × List String),
      (∀ it ∈ items, it.link ∈ ex ∨ it.link ∈ acc.2) →
      items.foldl (pageStep q ex) acc = acc
  | [], acc, _ => rfl
  | hd :: tl, acc, h => by
    have hg : hd.link ∈ ex ∨ hd.link ∈ acc.2 := h hd (List.mem_cons_self hd tl)
    have hstep : pageStep q ex acc hd = acc := by simp [pageStep, hg]
    rw [List.foldl_cons, hstep]
    exact pageFold_noop q ex tl acc (fun it hit => h it (List.mem_cons_of_mem hd hit))

/-- A loop iteration that continues keeps the existing-URL snapshot and
records the page pass's seen set. -/
theorem collectStep_next_inv (its : List SearchItem) (q : String) (total : Nat)
    (s s1 : CollectState) (hne : its ≠ [])
    (h : collectStep (fun _ _ => some its) q total s = StepOut.next s1) :
    s1.existing = s.existing ∧
    s1.collectedUrls = (pageNewItems q s.existing s.collectedUrls its).2 := by
  have hie : its.isEmpty = false := by
    simpa [List.isEmpty_iff] using hne
  simp only [collectStep, hie, Bool.false_eq_true, if_false] at h
  split_ifs at h with h1 h2
  all_goals injection h with h3
  all_goals subst h3
  all_goals exact ⟨rfl, rfl⟩

/-- A loop iteration whose page is fully covered stops: it accepts no
item, so the cumulative inserted-total cannot increase. -/
theorem collectStep_stop_of_covered (its : List SearchItem) (q : String)
    (total : Nat) (s : CollectState) (hne : its ≠ [])
    (hcov : ∀ it ∈ its, it.link ∈ s.existing ∨ it.link ∈ s.collectedUrls) :
    (collectStep (fun _ _ => some its) q total s).isStop = true := by
  have hie : its.isEmpty = false := by
    simpa [List.isEmpty_iff] using hne
  have hpage : pageNewItems q s.existing s.collectedUrls its =
      ([], s.collectedUrls) := by
    unfold pageNewItems
    exact pageFold_noop q s.existing its ([], s.collectedUrls) hcov
  simp [collectStep, hie, hpage, insertNews, StepOut.isStop]

/-- A loop run that terminates within its fuel returns the same state
under any larger fuel bound. -/
theorem collectLoop_fuel_irrelevant (prov : Nat → Nat → Option (List SearchItem))
    (q : String) (total : Nat) :
    ∀ (n : Nat) (s : CollectState) (r : CollectState),
      collectLoop prov q total n s = some r →
      ∀ m, n ≤ m → collectLoop prov q total m s = some r
  | 0, s, r, h, _, _ => by simp [collectLoop] at h
  | n + 1, s, r, h, m, hm => by
    obtain ⟨m1, rfl⟩ : ∃ m1, m = m1 + 1 := ⟨m - 1, by omega⟩
    rw [collectLoop] at h
    rw [collectLoop]
    by_cases hc : s.collected < total
    · rw [if_pos hc] at h ⊢
      cases hstep : collectStep prov q total s with
      | stop s2 =>
        rw [hstep] at h
        exact h
      | next s2 =>
        rw [hstep] at h
        exact collectLoop_fuel_irrelevant prov q total n s2 r h m1 (by omega)
    · rw [if_neg hc] at h ⊢
      exact h

/-- C3: against a provider that returns the same non-empty page forever,
the collect loop halts within two iterations — at the latest on the second
page, whose items are all already in the in-run seen set so the cumulative
inserted-total cannot increase — instead of paging on; any fuel bound of
at least 2 yields the same final state. -/
theorem c3_pagination_termination (its : List SearchItem) (q : String)
    (total : Nat) (db : DB) (existing : List String) (fuel : Nat)
    (hne : its ≠ []) (hf : 2 ≤ fuel) :
    (collectLoop (fun _ _ => some its) q total 2
        (initCollectState db existing)).isSome = true ∧
    collectLoop (fun _ _ => some its) q total fuel (initCollectState db existing) =
      collectLoop (fun _ _ => some its) q total 2 (initCollectState db existing) := by
  have hterm : (collectLoop (fun _ _ => some its) q total (0 + 1 + 1)
      (initCollectState db existing)).isSome = true := by
    set s0 := initCollectState db existing with hs0
    rw [collectLoop]
    by_cases h0 : s0.collected < total
    · rw [if_pos h0]
      cases hstep : collectStep (fun _ _ => some its) q total s0 with
      | stop s1 => rfl
      | next s1 =>
        show (collectLoop (fun _ _ => some its) q total (0 + 1) s1).isSome = true
        rw [collectLoop]
        by_cases h1 : s1.collected < total
        · rw [if_pos h1]
          have hinv := collectStep_next_inv its q total s0 s1 hne hstep
          have hcov : ∀ it ∈ its, it.link ∈ s1.existing ∨ it.link ∈ s1.collectedUrls := by
            intro it hit
            rw [hinv.1, hinv.2]
            exact pageFold_covers q s0.existing its ([], s0.collectedUrls) it hit
          have hstop := collectStep_stop_of_covered its q total s1 hne hcov
          cases hstep2 : collectStep (fun _ _ => some its) q total s1 with
          | stop s2 => rfl
          | next s2 =>
            rw [hstep2] at hstop
            simp [StepOut.isStop] at hstop
        · rw [if_neg h1]
          rfl
    · rw [if_neg h0]
      rfl
  have hterm2 : (collectLoop (fun _ _ => some its) q total 2
      (initCollectState db existing)).isSome = true := hterm
  rcases Option.isSome_iff_exists.1 hterm2 with ⟨r, hr⟩
  rw [hr]
  refine ⟨rfl, ?_⟩
  exact collectLoop_fuel_irrelevant (fun _ _ => some its) q total 2
    (initCollectState db existing) r hr fuel hf

/-- C3 witness: the constant one-item provider on the empty store. -/
theorem c3_pagination_termination_witness :
    [wSearchItem] ≠ ([] : List SearchItem) ∧ 2 ≤ 10 ∧
    ((collectLoop (fun _ _ => some [wSearchItem]) wQuery 500 2
        (initCollectState emptyDB [])).isSome = true ∧
      collectLoop (fun _ _ => some [wSearchItem]) wQuery 500 10
          (initCollectState emptyDB []) =
        collectLoop (fun _ _ => some [wSearchItem]) wQuery 500 2
          (initCollectState emptyDB [])) :=
  ⟨by decide, by decide,
    c3_pagination_termination [wSearchItem] wQuery 500 emptyDB [] 10
      (by decide) (by decide)⟩

end Ingestion
